import Mathlib

/-!
Verification of photo_tools (`src/lib.rs`)

A shallow embedding of the `photo_tools` library: the catalog builder
`photo_database`, the path helper `make_path`, and the orphan resolver
`delete_photos`.  Filesystem interaction is made explicit:

* a directory listing is passed to `photo_database` as the result of
  `fs::read_dir` (an `Except` of a list of per-entry `Except`s, mirroring
  `ReadDir`'s iterator of `io::Result<DirEntry>`);
* a path is represented by its decomposition into parent directory,
  file stem and optional extension (mirroring `Path::file_stem` /
  `Path::extension` / `PathBuf::pop`);
* `delete_photos` records the filesystem operations it performs as a trace
  of `Action`s and consults a failure oracle `fail : Action → Option IOError`
  standing for the outcome each underlying `std::fs` call would have;
* functions that can `panic!` (via `unwrap`) return a `RustResult` with an
  explicit `panicked` outcome, and `std::process::exit` is the `exited`
  outcome of `delete_photos`.
-/

set_option autoImplicit false

namespace PhotoTools

/-- Rust `std::io::Error`: an optional OS error code (`raw_os_error`) and a
message. -/
structure IOError where
  os_code : Option Int
  message : String
deriving DecidableEq, Repr

/-- Outcome of a Rust function returning `io::Result<α>` that may also
panic (`unwrap`). -/
inductive RustResult (α : Type) where
  | ok (val : α)
  | err (e : IOError)
  | panicked
deriving DecidableEq, Repr

/-- Rust `struct Photo` from `src/lib.rs`. -/
structure Photo where
  file_name : String
  has_raw : Bool
  has_jpg : Bool
deriving DecidableEq, Repr

/-- Rust `struct PhotoDir` from `src/lib.rs`; `path` is the directory path as a
string. -/
structure PhotoDir where
  path : String
  filter : String
  raw_ext : String
  img_ext : String
deriving DecidableEq, Repr

/-- One directory entry, decomposed the way `photo_database` inspects it:
its parent directory (what `file.clone()` followed by `pop()` leaves), its
file stem, its extension (`none` models a name with no extension, where
`file.extension()` returns `None`), and whether it is a regular file. -/
structure FileEntry where
  dir : String
  stem : String
  ext : Option String
  isFile : Bool
deriving DecidableEq, Repr

/-- The photo catalog: `HashMap<String, Photo>`, represented as an
association list with unique keys. -/
abbrev Catalog := List (String × Photo)

/-- Rust `HashMap::get` on the association-list representation. -/
def catGet : Catalog → String → Option Photo
  | [], _ => none
  | p :: tl, k => if p.1 == k then some p.2 else catGet tl k

/-- Rust `HashMap::insert` on the association-list representation: replace the
binding if the key is present, otherwise add a new one. -/
def catInsert : Catalog → String → Photo → Catalog
  | [], k, v => [(k, v)]
  | p :: tl, k, v => if p.1 == k then (k, v) :: tl else p :: catInsert tl k v

/-- The extension the catalog key is built from (`src/lib.rs:120-124`):
the RAW extension when the filter is `"RAW"`, the IMG extension otherwise. -/
def filterExt (pd : PhotoDir) : String :=
  if pd.filter == "RAW" then pd.raw_ext else pd.img_ext

/-- The catalog key built at `src/lib.rs:111-124`:
`<dir>/<basename>.<filter-extension>`. -/
def dbKey (pd : PhotoDir) (dir stem : String) : String :=
  dir ++ "/" ++ stem ++ "." ++ filterExt pd

/-- The body of the `for file in dir_list` loop of `photo_database`
(`src/lib.rs:95-159`) applied to one entry.  `none` models a panic:
`file.extension().unwrap()` on an entry without an extension. -/
def processEntry (pd : PhotoDir) (db : Catalog) (file : FileEntry) :
    Option Catalog :=
  if file.isFile then
    match file.ext with
    | none => none
    | some extension =>
      if extension == pd.raw_ext || extension == pd.img_ext then
        let filename := file.stem
        let raw := extension == pd.raw_ext
        let jpg := extension == pd.img_ext
        let file_path := dbKey pd file.dir file.stem
        match catGet db file_path with
        | some existing =>
          if (existing.has_raw && jpg) || (existing.has_jpg && raw) then
            some (catInsert db file_path ⟨filename, true, true⟩)
          else
            some db
        | none => some (catInsert db file_path ⟨filename, raw, jpg⟩)
      else
        some db
  else
    some db

/-- The whole catalog-building loop of `photo_database`, over the collected
directory entries. -/
def buildDb (pd : PhotoDir) : Catalog → List FileEntry → Option Catalog
  | db, [] => some db
  | db, f :: fs =>
    match processEntry pd db f with
    | none => none
    | some db2 => buildDb pd db2 fs

/-- Rust `collect::<Result<Vec<PathBuf>, io::Error>>()` (`src/lib.rs:89`): the
first per-entry error wins. -/
def collectResults : List (Except IOError FileEntry) →
    Except IOError (List FileEntry)
  | [] => .ok []
  | .error e :: _ => .error e
  | .ok f :: rest => (collectResults rest).map (f :: ·)

/-- The function `photo_database` (`src/lib.rs:81-166`).  `dir_list` is the outcome of
`fs::read_dir`: either an error, or a list of per-entry results.  The
`.unwrap()` at `src/lib.rs:87` turns a `read_dir` error into a panic; the
`?` at `src/lib.rs:89` returns the first per-entry error to the caller. -/
def photo_database (pd : PhotoDir)
    (dir_list : Except IOError (List (Except IOError FileEntry))) :
    RustResult Catalog :=
  match dir_list with
  | .error _ => .panicked
  | .ok entries =>
    match collectResults entries with
    | .error e => .err e
    | .ok files =>
      match buildDb pd [] files with
      | none => .panicked
      | some db => .ok db

/-- The function `make_path` (`src/lib.rs:39-58`).  `canonicalize` stands for
`fs::canonicalize`.  An empty path canonicalizes `"./"` and `unwrap`s the
result (`src/lib.rs:44`).  Otherwise the byte slice `&path[..1]` is
compared with `"."`: when the first character occupies a single byte this
is a comparison of that character with `'.'`; when it is a multi-byte
character, byte index 1 is not a character boundary and the slice panics.
A path starting with `'.'` is canonicalized with `?`; any other path is
pushed verbatim onto the fresh `PathBuf`. -/
def make_path (path : String)
    (canonicalize : String → Except IOError String) : RustResult String :=
  match path.data with
  | [] =>
    match canonicalize "./" with
    | .ok p => .ok p
    | .error _ => .panicked
  | c :: _ =>
    if c.utf8Size == 1 then
      if c == '.' then
        match canonicalize path with
        | .ok p => .ok p
        | .error e => .err e
      else .ok path
    else .panicked

/-- A filesystem operation performed by `delete_photos`: `fs::copy`,
`fs::remove_file`, `DirBuilder::create` and `fs::remove_dir_all`. -/
inductive Action where
  | copy (src dst : String)
  | removeFile (path : String)
  | createDir (path : String)
  | removeDirAll (path : String)
deriving DecidableEq, Repr

/-- How `delete_photos` terminates: returning `Ok(())`, returning an
`io::Error` (through `?`), calling `std::process::exit(code)`, or
panicking. -/
inductive DeleteOutcome where
  | ok
  | ioError (e : IOError)
  | exited (code : Int)
  | panicked
deriving DecidableEq, Repr

/-- Observable behaviour of one `delete_photos` run: the lines printed, the
filesystem operations attempted (in order), and how the run ended. -/
structure DeleteResult where
  printed : List String
  actions : List Action
  outcome : DeleteOutcome
deriving DecidableEq, Repr

/-- Result of the record loop of `delete_photos`: actions attempted, lines
printed, and the first `io::Error` hit (if any). -/
structure LoopResult where
  actions : List Action
  printed : List String
  firstErr : Option IOError
deriving DecidableEq, Repr

/-- The orphan test at `src/lib.rs:222-223`. -/
def isOrphan (pd : PhotoDir) (val : Photo) : Bool :=
  (pd.filter == "RAW" && (val.has_raw && !val.has_jpg))
    || (pd.filter == "IMG" && (val.has_jpg && !val.has_raw))

/-- The destination path built at `src/lib.rs:225-232`:
`<delete_path><file_name>.<filter extension>`. -/
def deleteFileName (pd : PhotoDir) (delete_path : String) (val : Photo) :
    String :=
  delete_path ++ val.file_name ++ "."
    ++ (if pd.filter == "RAW" then pd.raw_ext else pd.img_ext)

/-- The body of the `for (file, val) in photo_db` loop
(`src/lib.rs:221-239`) for one record: on an orphan, attempt the copy,
then — only if the copy succeeded — attempt the removal; report the first
failure. -/
def processRecord (pd : PhotoDir) (verbose : Bool)
    (fail : Action → Option IOError) (delete_path : String)
    (file : String) (val : Photo) : LoopResult :=
  if isOrphan pd val then
    let a1 := Action.copy file (deleteFileName pd delete_path val)
    match fail a1 with
    | some e => ⟨[a1], [], some e⟩
    | none =>
      let a2 := Action.removeFile file
      match fail a2 with
      | some e => ⟨[a1, a2], [], some e⟩
      | none =>
        ⟨[a1, a2],
         if verbose then ["\tFile " ++ file ++ " moved to to_delete folder"]
         else [],
         none⟩
  else ⟨[], [], none⟩

/-- The record loop of `delete_photos` over the catalog (in the iteration
order of the `HashMap`, abstracted as a list): the `?` operators abort the
loop at the first failing operation. -/
def runLoop (pd : PhotoDir) (verbose : Bool)
    (fail : Action → Option IOError) (delete_path : String) :
    List (String × Photo) → LoopResult
  | [] => ⟨[], [], none⟩
  | (file, val) :: rest =>
    let r := processRecord pd verbose fail delete_path file val
    match r.firstErr with
    | some e => ⟨r.actions, r.printed, some e⟩
    | none =>
      let r2 := runLoop pd verbose fail delete_path rest
      ⟨r.actions ++ r2.actions, r.printed ++ r2.printed, r2.firstErr⟩

/-- The `to_delete/` path built at `src/lib.rs:189-193` and stringified at
`src/lib.rs:219`: `PathBuf::push` inserts a separator and keeps the
component verbatim, so the string ends with the slash of
`"to_delete/"`. -/
def quarantinePath (pd : PhotoDir) : String :=
  pd.path ++ "/" ++ "to_delete/"

/-- The function `delete_photos` (`src/lib.rs:183-253`).  `dirExists` is the outcome of
the `fs::metadata` probe at `src/lib.rs:195-198` (`true` iff the metadata
call succeeded and the entry is a directory); `fail` gives the outcome of
each attempted filesystem operation.  A failing `DirBuilder::create`
prints a fixed diagnostic and exits the process with the raw OS error code
(`src/lib.rs:204-207`), panicking when the error has no OS code. -/
def delete_photos (pd : PhotoDir) (photo_db : List (String × Photo))
    (delete verbose : Bool) (dirExists : Bool)
    (fail : Action → Option IOError) : DeleteResult :=
  let remove_dir := quarantinePath pd
  let createActs : List Action :=
    if dirExists then [] else [.createDir remove_dir]
  match (if dirExists then none else fail (.createDir remove_dir)) with
  | some e =>
    match e.os_code with
    | some code =>
      ⟨["The directory could not be created"], createActs, .exited code⟩
    | none => ⟨["The directory could not be created"], createActs, .panicked⟩
  | none =>
    let printed1 : List String :=
      if verbose && !delete then
        ["\tFiles to be deleted by the user are located at: "
          ++ pd.path ++ "/" ++ "to_delete/"]
      else []
    let delete_path := remove_dir
    let lr := runLoop pd verbose fail delete_path photo_db
    match lr.firstErr with
    | some e => ⟨printed1 ++ lr.printed, createActs ++ lr.actions, .ioError e⟩
    | none =>
      if delete then
        match fail (.removeDirAll delete_path) with
        | some e =>
          ⟨printed1 ++ lr.printed,
           createActs ++ lr.actions ++ [.removeDirAll delete_path],
           .ioError e⟩
        | none =>
          ⟨printed1 ++ lr.printed
             ++ (if verbose then ["Folder with discarded files deleted!"]
                 else []),
           createActs ++ lr.actions ++ [.removeDirAll delete_path], .ok⟩
      else
        ⟨printed1 ++ lr.printed
           ++ ["The folder " ++ delete_path
               ++ " contains the discarded files."],
         createActs ++ lr.actions, .ok⟩

/-- Effect of one filesystem operation on the set of existing file paths,
modelling the `std::fs` semantics: a copy creates (or overwrites) the
destination, `remove_file` deletes one path, `remove_dir_all` deletes every
path inside the directory, and directory creation adds no file. -/
def applyAction (fs : List String) (a : Action) : List String :=
  match a with
  | .copy _ dst => if dst ∈ fs then fs else fs ++ [dst]
  | .removeFile p => fs.filter (fun f => !(f == p))
  | .createDir _ => fs
  | .removeDirAll d => fs.filter (fun f => !(d.data.isPrefixOf f.data))

/-- Effect of a trace of filesystem operations on the set of existing file
paths. -/
def applyTrace (actions : List Action) (fs : List String) : List String :=
  actions.foldl applyAction fs

/-! ## Catalog lemmas -/

theorem catGet_catInsert_self (db : Catalog) (k : String) (v : Photo) :
    catGet (catInsert db k v) k = some v := by
  induction db with
  | nil => simp [catInsert, catGet]
  | cons p tl ih =>
    by_cases h : (p.1 == k) = true
    · simp [catInsert, catGet, h]
    · simp only [catInsert, catGet, h, Bool.false_eq_true, if_false]
      exact ih

theorem catInsert_catInsert (db : Catalog) (k : String) (v1 v2 : Photo) :
    catInsert (catInsert db k v1) k v2 = catInsert db k v2 := by
  induction db with
  | nil => simp [catInsert]
  | cons p tl ih =>
    by_cases h : (p.1 == k) = true
    · simp [catInsert, h]
    · simp only [catInsert, h, Bool.false_eq_true, if_false, List.cons.injEq,
        true_and]
      exact ih

/-- C3: observing the same directory entry (hence the same identity key and
the same RAW/IMG kind) a second time leaves the catalog exactly as after
the first observation: processing an entry is idempotent. -/
theorem duplicate_observation_idempotent (pd : PhotoDir) (db : Catalog)
    (f : FileEntry) :
    (processEntry pd db f).bind (fun db2 => processEntry pd db2 f)
      = processEntry pd db f := by
  cases hf : f.isFile with
  | false => simp [processEntry, hf]
  | true =>
    cases hext : f.ext with
    | none => simp [processEntry, hf, hext]
    | some extension =>
      cases hr : (extension == pd.raw_ext) with
      | false =>
        cases hj : (extension == pd.img_ext) with
        | false => simp [processEntry, hf, hext, hr, hj]
        | true =>
          cases hget : catGet db (dbKey pd f.dir f.stem) with
          | some existing =>
            by_cases hcond : (existing.has_raw = true)
            · simp [processEntry, hf, hext, hr, hj, hget, hcond,
                catGet_catInsert_self, catInsert_catInsert]
            · simp [processEntry, hf, hext, hr, hj, hget,
                Bool.not_eq_true _ ▸ hcond, catGet_catInsert_self]
          | none =>
            simp [processEntry, hf, hext, hr, hj, hget,
              catGet_catInsert_self, catInsert_catInsert]
      | true =>
        cases hj : (extension == pd.img_ext) with
        | false =>
          cases hget : catGet db (dbKey pd f.dir f.stem) with
          | some existing =>
            by_cases hcond : (existing.has_jpg = true)
            · simp [processEntry, hf, hext, hr, hj, hget, hcond,
                catGet_catInsert_self, catInsert_catInsert]
            · simp [processEntry, hf, hext, hr, hj, hget,
                Bool.not_eq_true _ ▸ hcond, catGet_catInsert_self]
          | none =>
            simp [processEntry, hf, hext, hr, hj, hget,
              catGet_catInsert_self, catInsert_catInsert]
        | true =>
          cases hget : catGet db (dbKey pd f.dir f.stem) with
          | some existing =>
            by_cases hc : (existing.has_raw = true ∨ existing.has_jpg = true)
            · simp [processEntry, hf, hext, hr, hj, hget, hc,
                catGet_catInsert_self, catInsert_catInsert]
            · simp [processEntry, hf, hext, hr, hj, hget, hc]
          | none =>
            simp [processEntry, hf, hext, hr, hj, hget,
              catGet_catInsert_self, catInsert_catInsert]

theorem merge_pair (pd : PhotoDir) (db : Catalog) (d s : String)
    (hne : pd.raw_ext ≠ pd.img_ext)
    (habs : catGet db (dbKey pd d s) = none) :
    buildDb pd db
        [⟨d, s, some pd.raw_ext, true⟩, ⟨d, s, some pd.img_ext, true⟩]
      = some (catInsert db (dbKey pd d s) ⟨s, true, true⟩)
    ∧ buildDb pd db
        [⟨d, s, some pd.img_ext, true⟩, ⟨d, s, some pd.raw_ext, true⟩]
      = some (catInsert db (dbKey pd d s) ⟨s, true, true⟩) := by
  have hr : (pd.raw_ext == pd.img_ext) = false := by simp [hne]
  have hj : (pd.img_ext == pd.raw_ext) = false := by simp [Ne.symm hne]
  constructor <;>
    simp [buildDb, processEntry, habs, hr, hj, catGet_catInsert_self,
      catInsert_catInsert]

/-- C1: two entries in the same directory with the same base name, one
carrying the RAW extension and one the IMG extension (the two extensions
distinct), merge into a single record keyed
`<dir>/<basename>.<filter-extension>` with both flags true; the outcome is
the same whichever of the two files is observed first, both from an
arbitrary catalog state not yet containing the key and through
`photo_database` on the two-file directory. -/
theorem merge_correct (pd : PhotoDir) (db : Catalog) (d s : String)
    (hne : pd.raw_ext ≠ pd.img_ext)
    (hfilter : pd.filter = "RAW" ∨ pd.filter = "IMG")
    (habs : catGet db (dbKey pd d s) = none) :
    (buildDb pd db
         [⟨d, s, some pd.raw_ext, true⟩, ⟨d, s, some pd.img_ext, true⟩]
       = some (catInsert db (dbKey pd d s) ⟨s, true, true⟩)
     ∧ buildDb pd db
         [⟨d, s, some pd.img_ext, true⟩, ⟨d, s, some pd.raw_ext, true⟩]
       = buildDb pd db
         [⟨d, s, some pd.raw_ext, true⟩, ⟨d, s, some pd.img_ext, true⟩])
    ∧ photo_database pd
        (.ok [.ok ⟨d, s, some pd.raw_ext, true⟩,
              .ok ⟨d, s, some pd.img_ext, true⟩])
      = .ok [(dbKey pd d s, ⟨s, true, true⟩)]
    ∧ photo_database pd
        (.ok [.ok ⟨d, s, some pd.img_ext, true⟩,
              .ok ⟨d, s, some pd.raw_ext, true⟩])
      = .ok [(dbKey pd d s, ⟨s, true, true⟩)] := by
  obtain ⟨h1, h2⟩ := merge_pair pd db d s hne habs
  obtain ⟨g1, g2⟩ := merge_pair pd [] d s hne rfl
  refine ⟨⟨h1, h2.trans h1.symm⟩, ?_, ?_⟩
  · simp [photo_database, collectResults, Except.map, g1, catInsert]
  · simp [photo_database, collectResults, Except.map, g2, catInsert]

/-- Witness for C1 at a concrete configuration and directory. -/
theorem merge_correct_witness :
    (("RAF" : String) ≠ "JPG")
    ∧ photo_database ⟨"/photos", "RAW", "RAF", "JPG"⟩
        (.ok [.ok ⟨"/photos", "a", some "RAF", true⟩,
              .ok ⟨"/photos", "a", some "JPG", true⟩])
      = .ok [(dbKey ⟨"/photos", "RAW", "RAF", "JPG"⟩ "/photos" "a",
              ⟨"a", true, true⟩)] :=
  ⟨by decide,
   (merge_correct ⟨"/photos", "RAW", "RAF", "JPG"⟩ [] "/photos" "a"
      (by decide) (Or.inl rfl) rfl).2.1⟩

/-- The catalog invariant of the spec: every stored record has at least one
completeness flag set. -/
def catalogInv (db : Catalog) : Prop :=
  ∀ p ∈ db, (p.2.has_raw || p.2.has_jpg) = true

theorem catalogInv_catInsert (k : String) (v : Photo)
    (hv : (v.has_raw || v.has_jpg) = true) :
    ∀ db : Catalog, catalogInv db → catalogInv (catInsert db k v) := by
  intro db
  induction db with
  | nil =>
    intro _ p hp
    simp [catInsert] at hp
    simp [hp, hv]
  | cons q tl ih =>
    intro h p hp
    by_cases hq : (q.1 == k) = true
    · simp only [catInsert, hq, if_true] at hp
      rcases List.mem_cons.mp hp with hp | hp
      · simp [hp, hv]
      · exact h p (List.mem_cons_of_mem _ hp)
    · simp only [catInsert, hq, Bool.false_eq_true, if_false] at hp
      rcases List.mem_cons.mp hp with hp | hp
      · exact h p (by simp [hp])
      · exact ih (fun r hr => h r (List.mem_cons_of_mem _ hr)) p hp

theorem catalogInv_processEntry (pd : PhotoDir) (db : Catalog) (f : FileEntry)
    (db2 : Catalog) (h : catalogInv db) (hp : processEntry pd db f = some db2) :
    catalogInv db2 := by
  cases hf : f.isFile with
  | false =>
    simp [processEntry, hf] at hp
    exact hp ▸ h
  | true =>
    cases hext : f.ext with
    | none => simp [processEntry, hf, hext] at hp
    | some extension =>
      by_cases hg : (extension == pd.raw_ext || extension == pd.img_ext) = true
      · cases hget : catGet db (dbKey pd f.dir f.stem) with
        | some existing =>
          by_cases hcond : ((existing.has_raw && (extension == pd.img_ext))
              || (existing.has_jpg && (extension == pd.raw_ext))) = true
          · simp [processEntry, hf, hext, hg, hget, hcond] at hp
            exact hp ▸ catalogInv_catInsert _ _ (by simp) db h
          · simp [processEntry, hf, hext, hg, hget, hcond] at hp
            exact hp ▸ h
        | none =>
          simp [processEntry, hf, hext, hg, hget] at hp
          exact hp ▸ catalogInv_catInsert _ _ (by simpa using hg) db h
      · simp [processEntry, hf, hext, hg] at hp
        exact hp ▸ h

theorem catalogInv_buildDb (pd : PhotoDir) :
    ∀ (files : List FileEntry) (db db2 : Catalog), catalogInv db →
      buildDb pd db files = some db2 → catalogInv db2 := by
  intro files
  induction files with
  | nil =>
    intro db db2 h hb
    simp [buildDb] at hb
    exact hb ▸ h
  | cons f fs ih =>
    intro db db2 h hb
    simp only [buildDb] at hb
    cases hpe : processEntry pd db f with
    | none => rw [hpe] at hb; simp at hb
    | some db1 =>
      rw [hpe] at hb
      exact ih db1 db2 (catalogInv_processEntry pd db f db1 h hpe) hb

/-- C5: every record of a catalog returned by `photo_database` has at least
one of `has_raw`/`has_jpg` true, and each single catalog update performed by
the builder preserves this invariant. -/
theorem catalog_flag_invariant (pd : PhotoDir) :
    (∀ (db : Catalog) (f : FileEntry) (db2 : Catalog), catalogInv db →
        processEntry pd db f = some db2 → catalogInv db2)
    ∧ ∀ (dir_list : Except IOError (List (Except IOError FileEntry)))
        (db : Catalog), photo_database pd dir_list = .ok db → catalogInv db := by
  refine ⟨fun db f db2 => catalogInv_processEntry pd db f db2, ?_⟩
  intro dir_list db hdb
  cases dir_list with
  | error e => simp [photo_database] at hdb
  | ok entries =>
    simp only [photo_database] at hdb
    cases hc : collectResults entries with
    | error e => rw [hc] at hdb; simp at hdb
    | ok files =>
      rw [hc] at hdb
      cases hb : buildDb pd [] files with
      | none => simp [hb] at hdb
      | some db0 =>
        simp only [hb, RustResult.ok.injEq] at hdb
        exact hdb ▸ catalogInv_buildDb pd files [] db0
          (fun p hp => absurd hp (List.not_mem_nil p)) hb

/-- A fixed example configuration used by the witnesses. -/
def pdW : PhotoDir := ⟨"/photos", "RAW", "RAF", "JPG"⟩

/-- Witness for C5: the invariant, established through `photo_database` on
a concrete one-file directory. -/
theorem catalog_flag_invariant_witness :
    catalogInv [(dbKey pdW "/photos" "a", ⟨"a", true, false⟩)] :=
  (catalog_flag_invariant pdW).2
    (.ok [.ok ⟨"/photos", "a", some "RAF", true⟩]) _ rfl

/-- C4 (the code's actual behaviour at the failing input): when the
directory listing itself fails, `photo_database` panics — the `unwrap` at
`src/lib.rs:87` — instead of returning the error as the `io::Error` of its
result; only a failure of an individual directory *entry* is returned as an
error, through the `?` at `src/lib.rs:89`. -/
theorem read_dir_failure_panics (pd : PhotoDir) (e : IOError)
    (rest : List (Except IOError FileEntry)) :
    photo_database pd (.error e) = .panicked
    ∧ photo_database pd (.ok (.error e :: rest)) = .err e :=
  ⟨rfl, rfl⟩

/-- C8 counterexample: the path `"é"` is non-empty and its first character is not
`'.'`, yet `make_path` does not return it verbatim — the byte slice
`&path[..1]` panics because byte index 1 is not a character boundary. -/
theorem make_path_multibyte_counterexample :
    ("é" : String) ≠ ""
    ∧ ("é" : String).data.head? = some 'é'
    ∧ ('é' : Char) ≠ '.'
    ∧ make_path "é" (fun s => .ok s) = .panicked
    ∧ make_path "é" (fun s => .ok s) ≠ .ok "é" := by
  refine ⟨by decide, rfl, by decide, rfl, by decide⟩

/-- C8 amended: for every non-empty path whose first character is a
single-byte character other than `'.'`, `make_path` returns the path
verbatim, for every behaviour of `fs::canonicalize` — so no
canonicalization and no existence or permission check takes place. -/
theorem make_path_verbatim (path : String) (c : Char) (cs : List Char)
    (canonicalize : String → Except IOError String)
    (hdata : path.data = c :: cs) (hsize : c.utf8Size = 1)
    (hdot : c ≠ '.') :
    make_path path canonicalize = .ok path := by
  simp [make_path, hdata, hsize, hdot]

/-- Witness for C8 amended, at the path `"photos"`. -/
theorem make_path_verbatim_witness :
    make_path "photos" (fun s => .ok s) = .ok "photos" :=
  make_path_verbatim "photos" 'p' "hotos".data (fun s => .ok s) rfl
    (by decide) (by decide)

/-! ## Lemmas about the orphan-resolution loop -/

/-- Does this filesystem operation read or delete the given source file?
(`copy` with it as source, or `remove_file` of it.) -/
def touchesFile (a : Action) (f : String) : Bool :=
  match a with
  | .copy src _ => src == f
  | .removeFile p => p == f
  | _ => false

theorem runLoop_touches_orphan (pd : PhotoDir) (verbose : Bool)
    (fail : Action → Option IOError) (dp : String) (g : String) :
    ∀ db : List (String × Photo),
      ∀ a ∈ (runLoop pd verbose fail dp db).actions,
        touchesFile a g = true → ∃ v, (g, v) ∈ db ∧ isOrphan pd v = true := by
  intro db
  induction db with
  | nil => simp [runLoop]
  | cons p rest ih =>
    obtain ⟨file, val⟩ := p
    intro a ha ht
    cases ho : isOrphan pd val with
    | false =>
      simp only [runLoop, processRecord, ho, Bool.false_eq_true, if_false,
        List.nil_append] at ha
      obtain ⟨v, hv, hov⟩ := ih a ha ht
      exact ⟨v, List.mem_cons_of_mem _ hv, hov⟩
    | true =>
      have hcase : a ∈ [Action.copy file (deleteFileName pd dp val),
            Action.removeFile file]
          ∨ a ∈ (runLoop pd verbose fail dp rest).actions := by
        cases h1 : fail (.copy file (deleteFileName pd dp val)) with
        | some e =>
          simp only [runLoop, processRecord, ho, if_true, h1] at ha
          simp at ha
          simp [ha]
        | none =>
          cases h2 : fail (.removeFile file) with
          | some e =>
            simp only [runLoop, processRecord, ho, if_true, h1, h2] at ha
            simp at ha
            rcases ha with ha | ha <;> simp [ha]
          | none =>
            simp only [runLoop, processRecord, ho, if_true, h1, h2,
              List.cons_append, List.nil_append] at ha
            rcases List.mem_cons.mp ha with ha | ha
            · simp [ha]
            · rcases List.mem_cons.mp ha with ha | ha
              · simp [ha]
              · exact Or.inr ha
      rcases hcase with hin | hin
      · have hg : g = file := by
          rcases List.mem_cons.mp hin with rfl | hin
          · have hb : (file == g) = true := by simpa [touchesFile] using ht
            exact (eq_of_beq hb).symm
          · rcases List.mem_cons.mp hin with rfl | hin
            · have hb : (file == g) = true := by simpa [touchesFile] using ht
              exact (eq_of_beq hb).symm
            · cases hin
        exact ⟨val, by simp [hg], ho⟩
      · obtain ⟨v, hv, hov⟩ := ih a hin ht
        exact ⟨v, List.mem_cons_of_mem _ hv, hov⟩

theorem runLoop_append (pd : PhotoDir) (verbose : Bool)
    (fail : Action → Option IOError) (dp : String) :
    ∀ db1 db2 : List (String × Photo),
      (runLoop pd verbose fail dp db1).firstErr = none →
      runLoop pd verbose fail dp (db1 ++ db2)
        = ⟨(runLoop pd verbose fail dp db1).actions
             ++ (runLoop pd verbose fail dp db2).actions,
           (runLoop pd verbose fail dp db1).printed
             ++ (runLoop pd verbose fail dp db2).printed,
           (runLoop pd verbose fail dp db2).firstErr⟩ := by
  intro db1
  induction db1 with
  | nil => intro db2 _; simp [runLoop]
  | cons p rest ih =>
    obtain ⟨file, val⟩ := p
    intro db2 hok
    cases hr : (processRecord pd verbose fail dp file val).firstErr with
    | some e =>
      exfalso
      simp only [runLoop, hr] at hok
      exact Option.some_ne_none e hok
    | none =>
      have hok2 : (runLoop pd verbose fail dp rest).firstErr = none := by
        simpa only [runLoop, hr] using hok
      simp only [List.cons_append, runLoop, hr, List.append_eq, ih db2 hok2,
        List.append_assoc]

theorem runLoop_no_orphans (pd : PhotoDir) (verbose : Bool)
    (fail : Action → Option IOError) (dp : String)
    (hno : ∀ val : Photo, isOrphan pd val = false) :
    ∀ db : List (String × Photo),
      runLoop pd verbose fail dp db = ⟨[], [], none⟩ := by
  intro db
  induction db with
  | nil => rfl
  | cons p rest ih =>
    obtain ⟨file, val⟩ := p
    simp [runLoop, processRecord, hno val, ih]

theorem runLoop_ok_of_no_fail (pd : PhotoDir) (verbose : Bool)
    (fail : Action → Option IOError) (dp : String)
    (hfail : ∀ a, fail a = none) :
    ∀ db : List (String × Photo),
      (runLoop pd verbose fail dp db).firstErr = none := by
  intro db
  induction db with
  | nil => rfl
  | cons p rest ih =>
    obtain ⟨file, val⟩ := p
    cases ho : isOrphan pd val with
    | false => simpa only [runLoop, processRecord, ho, Bool.false_eq_true,
        if_false] using ih
    | true =>
      simpa only [runLoop, processRecord, ho, if_true, hfail] using ih

theorem runLoop_no_createDir (pd : PhotoDir) (verbose : Bool)
    (fail : Action → Option IOError) (dp : String) (p : String) :
    ∀ db : List (String × Photo),
      Action.createDir p ∉ (runLoop pd verbose fail dp db).actions := by
  intro db
  induction db with
  | nil => simp [runLoop]
  | cons q rest ih =>
    obtain ⟨file, val⟩ := q
    intro hmem
    cases ho : isOrphan pd val with
    | false =>
      simp only [runLoop, processRecord, ho, Bool.false_eq_true, if_false,
        List.nil_append] at hmem
      exact ih hmem
    | true =>
      cases h1 : fail (.copy file (deleteFileName pd dp val)) with
      | some e =>
        simp only [runLoop, processRecord, ho, if_true, h1] at hmem
        simp at hmem
      | none =>
        cases h2 : fail (.removeFile file) with
        | some e =>
          simp only [runLoop, processRecord, ho, if_true, h1, h2] at hmem
          simp at hmem
        | none =>
          simp only [runLoop, processRecord, ho, if_true, h1, h2,
            List.cons_append, List.nil_append] at hmem
          rcases List.mem_cons.mp hmem with h | h
          · cases h
          · rcases List.mem_cons.mp h with h | h
            · cases h
            · exact ih h

theorem key_unique (db : List (String × Photo))
    (hnd : (db.map Prod.fst).Nodup) (k : String) (v1 v2 : Photo)
    (h1 : (k, v1) ∈ db) (h2 : (k, v2) ∈ db) : v1 = v2 := by
  induction db with
  | nil => cases h1
  | cons p rest ih =>
    rw [List.map_cons] at hnd
    have hnotin := (List.nodup_cons.mp hnd).1
    have hnd2 := (List.nodup_cons.mp hnd).2
    rcases List.mem_cons.mp h1 with h1 | h1 <;>
      rcases List.mem_cons.mp h2 with h2 | h2
    · rw [← h1] at h2
      exact congrArg Prod.snd h2.symm
    · exact absurd (by rw [← h1]; simpa using List.mem_map_of_mem Prod.fst h2)
        hnotin
    · exact absurd (by rw [← h2]; simpa using List.mem_map_of_mem Prod.fst h1)
        hnotin
    · exact ih hnd2 h1 h2

theorem delete_photos_actions_cases (pd : PhotoDir)
    (db : List (String × Photo)) (delete verbose dirExists : Bool)
    (fail : Action → Option IOError) :
    ∀ a ∈ (delete_photos pd db delete verbose dirExists fail).actions,
      a ∈ (runLoop pd verbose fail (quarantinePath pd) db).actions
      ∨ (∃ p, a = Action.createDir p) ∨ (∃ p, a = Action.removeDirAll p) := by
  intro a ha
  cases hd : dirExists with
  | false =>
    cases hc : fail (Action.createDir (quarantinePath pd)) with
    | some e =>
      cases ho : e.os_code with
      | some code =>
        simp [delete_photos, hd, hc, ho] at ha
        exact Or.inr (Or.inl ⟨_, ha⟩)
      | none =>
        simp [delete_photos, hd, hc, ho] at ha
        exact Or.inr (Or.inl ⟨_, ha⟩)
    | none =>
      cases hl : (runLoop pd verbose fail (quarantinePath pd) db).firstErr with
      | some e =>
        simp [delete_photos, hd, hc, hl] at ha
        rcases ha with ha | ha
        · exact Or.inr (Or.inl ⟨_, ha⟩)
        · exact Or.inl ha
      | none =>
        cases hdel : delete with
        | false =>
          simp [delete_photos, hd, hc, hl, hdel] at ha
          rcases ha with ha | ha
          · exact Or.inr (Or.inl ⟨_, ha⟩)
          · exact Or.inl ha
        | true =>
          cases hr : fail (Action.removeDirAll (quarantinePath pd)) with
          | some e =>
            simp [delete_photos, hd, hc, hl, hdel, hr] at ha
            rcases ha with ha | ha | ha
            · exact Or.inr (Or.inl ⟨_, ha⟩)
            · exact Or.inl ha
            · exact Or.inr (Or.inr ⟨_, ha⟩)
          | none =>
            simp [delete_photos, hd, hc, hl, hdel, hr] at ha
            rcases ha with ha | ha | ha
            · exact Or.inr (Or.inl ⟨_, ha⟩)
            · exact Or.inl ha
            · exact Or.inr (Or.inr ⟨_, ha⟩)
  | true =>
    cases hl : (runLoop pd verbose fail (quarantinePath pd) db).firstErr with
    | some e =>
      simp [delete_photos, hd, hl] at ha
      exact Or.inl ha
    | none =>
      cases hdel : delete with
      | false =>
        simp [delete_photos, hd, hl, hdel] at ha
        exact Or.inl ha
      | true =>
        cases hr : fail (Action.removeDirAll (quarantinePath pd)) with
        | some e =>
          simp [delete_photos, hd, hl, hdel, hr] at ha
          rcases ha with ha | ha
          · exact Or.inl ha
          · exact Or.inr (Or.inr ⟨_, ha⟩)
        | none =>
          simp [delete_photos, hd, hl, hdel, hr] at ha
          rcases ha with ha | ha
          · exact Or.inl ha
          · exact Or.inr (Or.inr ⟨_, ha⟩)

/-- C2: the function `delete_photos` classifies a record as an orphan exactly when
(filter = RAW and `has_raw && !has_jpg`) or (filter = IMG and
`has_jpg && !has_raw`); a record that is not an orphan — both flags set, or
only the flag the filter does not require — is never the source of a copy
and never removed. -/
theorem orphan_condition_correct (pd : PhotoDir) (db : List (String × Photo))
    (delete verbose dirExists : Bool) (fail : Action → Option IOError)
    (file : String) (val : Photo)
    (hnd : (db.map Prod.fst).Nodup) (hmem : (file, val) ∈ db) :
    (isOrphan pd val = true ↔
       (pd.filter = "RAW" ∧ val.has_raw = true ∧ val.has_jpg = false)
       ∨ (pd.filter = "IMG" ∧ val.has_jpg = true ∧ val.has_raw = false))
    ∧ (isOrphan pd val = false →
        ∀ a ∈ (delete_photos pd db delete verbose dirExists fail).actions,
          touchesFile a file = false) := by
  constructor
  · simp [isOrphan]
  · intro hno a ha
    by_contra hT
    have ht : touchesFile a file = true := by
      revert hT; cases touchesFile a file <;> simp
    rcases delete_photos_actions_cases pd db delete verbose dirExists fail a ha
      with hL | ⟨p, rfl⟩ | ⟨p, rfl⟩
    · obtain ⟨v, hv, hov⟩ :=
        runLoop_touches_orphan pd verbose fail (quarantinePath pd) file db
          a hL ht
      rw [key_unique db hnd file v val hv hmem] at hov
      exact absurd hov (by simp [hno])
    · exact absurd ht (by simp [touchesFile])
    · exact absurd ht (by simp [touchesFile])

/-- Witness for C2 at a concrete catalog: the record with both flags is not
an orphan. -/
theorem orphan_condition_correct_witness :
    isOrphan pdW ⟨"a", true, true⟩ = false
    ∧ ¬((pdW.filter = "RAW" ∧ (true : Bool) = true ∧ (true : Bool) = false)
        ∨ (pdW.filter = "IMG" ∧ (true : Bool) = true
            ∧ (true : Bool) = false)) := by
  constructor
  · rfl
  · intro h
    have h2 := (orphan_condition_correct pdW
        [(dbKey pdW "/photos" "a", ⟨"a", true, true⟩)] false false true
        (fun _ => none) (dbKey pdW "/photos" "a") ⟨"a", true, true⟩
        (by simp) (by simp)).1
    exact absurd (h2.mpr h) (by decide)

/-- C6: relocation copies the orphan's source file before removing it (the
copy action strictly precedes the removal); when the copy fails,
`delete_photos` returns the I/O error at once, attempts no operation for
the remaining records, and never removes the original source file. -/
theorem copy_failure_aborts (pd : PhotoDir) (pre rest : List (String × Photo))
    (file : String) (val : Photo) (e : IOError) (delete verbose : Bool)
    (fail : Action → Option IOError)
    (horphan : isOrphan pd val = true)
    (hpre : (runLoop pd verbose fail (quarantinePath pd) pre).firstErr = none)
    (hfail : fail (.copy file (deleteFileName pd (quarantinePath pd) val))
      = some e)
    (hkey : file ∉ pre.map Prod.fst) :
    (delete_photos pd (pre ++ (file, val) :: rest) delete verbose true
        fail).outcome = .ioError e
    ∧ (delete_photos pd (pre ++ (file, val) :: rest) delete verbose true
        fail).actions
      = (runLoop pd verbose fail (quarantinePath pd) pre).actions
        ++ [.copy file (deleteFileName pd (quarantinePath pd) val)]
    ∧ Action.removeFile file
        ∉ (delete_photos pd (pre ++ (file, val) :: rest) delete verbose true
            fail).actions
    ∧ ∀ fail2 : Action → Option IOError,
        fail2 (.copy file (deleteFileName pd (quarantinePath pd) val))
          = none →
        (processRecord pd verbose fail2 (quarantinePath pd) file val).actions
          = [.copy file (deleteFileName pd (quarantinePath pd) val),
             .removeFile file] := by
  have htail : runLoop pd verbose fail (quarantinePath pd)
      ((file, val) :: rest)
      = ⟨[.copy file (deleteFileName pd (quarantinePath pd) val)], [],
         some e⟩ := by
    simp [runLoop, processRecord, horphan, hfail]
  have hwhole := runLoop_append pd verbose fail (quarantinePath pd) pre
    ((file, val) :: rest) hpre
  rw [htail] at hwhole
  have h2 : (delete_photos pd (pre ++ (file, val) :: rest) delete verbose true
      fail).actions
      = (runLoop pd verbose fail (quarantinePath pd) pre).actions
        ++ [.copy file (deleteFileName pd (quarantinePath pd) val)] := by
    simp [delete_photos, hwhole]
  refine ⟨by simp [delete_photos, hwhole], h2, ?_, ?_⟩
  · rw [h2]
    intro hmem
    rcases List.mem_append.mp hmem with hmem | hmem
    · have ht : touchesFile (Action.removeFile file) file = true := by
        simp [touchesFile]
      obtain ⟨v, hv, _⟩ := runLoop_touches_orphan pd verbose fail
        (quarantinePath pd) file pre _ hmem ht
      exact hkey (List.mem_map_of_mem Prod.fst hv)
    · simp at hmem
  · intro fail2 hf2
    cases hr2 : fail2 (Action.removeFile file) <;>
      simp [processRecord, horphan, hf2, hr2]

/-- A failure oracle for the C6 witness: every `fs::copy` fails with
`ENOSPC`, everything else succeeds. -/
def failW : Action → Option IOError := fun a =>
  match a with
  | .copy _ _ => some ⟨some 28, "No space left on device"⟩
  | _ => none

/-- Witness for C6: with one orphan record whose copy fails, the run ends
with that I/O error. -/
theorem copy_failure_aborts_witness :
    isOrphan pdW ⟨"b", true, false⟩ = true
    ∧ (delete_photos pdW [("/photos/b.RAF", ⟨"b", true, false⟩)] false false
        true failW).outcome
      = .ioError ⟨some 28, "No space left on device"⟩ :=
  ⟨rfl,
   (copy_failure_aborts pdW [] [] "/photos/b.RAF" ⟨"b", true, false⟩
      ⟨some 28, "No space left on device"⟩ false false failW rfl rfl rfl
      (by simp)).1⟩

/-- C7 counterexample: two quarantine-creation failures with the same OS
code but different OS messages give identical observable behaviour, and the
only line printed is the fixed diagnostic — the OS error message is not
reported anywhere. -/
theorem create_failure_message_not_reported :
    delete_photos pdW [] false false false
        (fun a => match a with
          | .createDir _ => some ⟨some 13, "Permission denied"⟩
          | _ => none)
      = delete_photos pdW [] false false false
        (fun a => match a with
          | .createDir _ => some ⟨some 13, "No space left on device"⟩
          | _ => none)
    ∧ (delete_photos pdW [] false false false
        (fun a => match a with
          | .createDir _ => some ⟨some 13, "Permission denied"⟩
          | _ => none)).printed
      = ["The directory could not be created"] :=
  ⟨rfl, rfl⟩

/-- C7 amended: when the quarantine directory is absent and its creation
fails with an error carrying an OS code, `delete_photos` prints the fixed
diagnostic `The directory could not be created` (not the OS error message)
and terminates the process with the OS error code as exit status. -/
theorem create_failure_exits_with_code (pd : PhotoDir)
    (db : List (String × Photo)) (delete verbose : Bool)
    (fail : Action → Option IOError) (e : IOError) (code : Int)
    (hfail : fail (.createDir (quarantinePath pd)) = some e)
    (hcode : e.os_code = some code) :
    delete_photos pd db delete verbose false fail
      = ⟨["The directory could not be created"],
         [.createDir (quarantinePath pd)], .exited code⟩ := by
  simp [delete_photos, hfail, hcode]

/-- Witness for C7 amended, at a concrete `EACCES` failure. -/
theorem create_failure_exits_with_code_witness :
    delete_photos pdW [] false false false
        (fun a => match a with
          | .createDir _ => some ⟨some 13, "Permission denied"⟩
          | _ => none)
      = ⟨["The directory could not be created"],
         [.createDir (quarantinePath pdW)], .exited 13⟩ :=
  create_failure_exits_with_code pdW [] false false _
    ⟨some 13, "Permission denied"⟩ 13 rfl rfl

/-- C9: under a filter string other than `"RAW"` and `"IMG"`, no record is
an orphan and no photo file is copied or removed; the run still creates the
quarantine directory when absent and, in delete mode, removes it. -/
theorem unknown_filter_touches_no_photo (pd : PhotoDir)
    (db : List (String × Photo)) (delete verbose dirExists : Bool)
    (h1 : pd.filter ≠ "RAW") (h2 : pd.filter ≠ "IMG") :
    (∀ val : Photo, isOrphan pd val = false)
    ∧ (delete_photos pd db delete verbose dirExists (fun _ => none)).actions
      = (if dirExists then [] else [.createDir (quarantinePath pd)])
        ++ (if delete then [.removeDirAll (quarantinePath pd)] else [])
    ∧ (delete_photos pd db delete verbose dirExists (fun _ => none)).outcome
      = .ok := by
  have hno : ∀ val : Photo, isOrphan pd val = false := fun val => by
    simp [isOrphan, h1, h2]
  have hrl := runLoop_no_orphans pd verbose (fun _ => none)
    (quarantinePath pd) hno db
  refine ⟨hno, ?_, ?_⟩ <;>
    cases dirExists <;> cases delete <;> simp [delete_photos, hrl]

/-- An example configuration with a filter that is neither RAW nor IMG. -/
def pdX : PhotoDir := ⟨"/photos", "XYZ", "RAF", "JPG"⟩

/-- Witness for C9: filter `"XYZ"`, one incomplete record, delete mode with
the quarantine directory present — only the quarantine removal happens. -/
theorem unknown_filter_touches_no_photo_witness :
    (delete_photos pdX [("/photos/b.RAF", ⟨"b", true, false⟩)] true false
        true (fun _ => none)).actions
      = [Action.removeDirAll (quarantinePath pdX)]
    ∧ (delete_photos pdX [("/photos/b.RAF", ⟨"b", true, false⟩)] true false
        true (fun _ => none)).outcome = .ok :=
  ⟨(unknown_filter_touches_no_photo pdX
      [("/photos/b.RAF", ⟨"b", true, false⟩)] true false true
      (by decide) (by decide)).2.1,
   (unknown_filter_touches_no_photo pdX
      [("/photos/b.RAF", ⟨"b", true, false⟩)] true false true
      (by decide) (by decide)).2.2⟩

/-- C10: when the quarantine directory already exists it is reused — no
creation is attempted and the run succeeds — and in delete mode the final
`remove_dir_all` leaves no file under the quarantine path, including files
that were already there before the run. -/
theorem existing_quarantine_reused_and_cleared (pd : PhotoDir)
    (db : List (String × Photo)) (verbose : Bool)
    (fail : Action → Option IOError) (fs0 : List String)
    (hfail : ∀ a, fail a = none) :
    (∀ p, Action.createDir p
        ∉ (delete_photos pd db true verbose true fail).actions)
    ∧ (delete_photos pd db true verbose true fail).outcome = .ok
    ∧ ∀ f : String, (quarantinePath pd).data.isPrefixOf f.data = true →
        f ∉ applyTrace (delete_photos pd db true verbose true fail).actions
            fs0 := by
  have hok := runLoop_ok_of_no_fail pd verbose fail (quarantinePath pd)
    hfail db
  have hacts : (delete_photos pd db true verbose true fail).actions
      = (runLoop pd verbose fail (quarantinePath pd) db).actions
        ++ [Action.removeDirAll (quarantinePath pd)] := by
    simp [delete_photos, hok, hfail]
  refine ⟨?_, ?_, ?_⟩
  · intro p hmem
    rw [hacts] at hmem
    rcases List.mem_append.mp hmem with hmem | hmem
    · exact runLoop_no_createDir pd verbose fail (quarantinePath pd) p db hmem
    · simp at hmem
  · simp [delete_photos, hok, hfail]
  · intro f hpref hmem
    rw [hacts] at hmem
    unfold applyTrace at hmem
    rw [List.foldl_append] at hmem
    simp only [List.foldl_cons, List.foldl_nil, applyAction] at hmem
    have hc := (List.mem_filter.mp hmem).2
    rw [hpref] at hc
    simp at hc

/-- Witness for C10: a file that was already inside `to_delete/` before the
run is gone after a delete-mode run. -/
theorem existing_quarantine_reused_and_cleared_witness :
    ("/photos/to_delete/old.JPG" : String)
      ∉ applyTrace
          (delete_photos pdW [("/photos/b.RAF", ⟨"b", true, false⟩)] true
            false true (fun _ => none)).actions
          ["/photos/to_delete/old.JPG"] :=
  (existing_quarantine_reused_and_cleared pdW
      [("/photos/b.RAF", ⟨"b", true, false⟩)] false (fun _ => none)
      ["/photos/to_delete/old.JPG"] (fun _ => rfl)).2.2
    "/photos/to_delete/old.JPG" (by decide)

end PhotoTools
